import Mathlib

/-!
Shallow embedding of the task-planner bot (src/main.py): an SQLite-backed
store of categories and tasks (`categories (id INTEGER PRIMARY KEY, name
TEXT UNIQUE)`, `tasks (id INTEGER PRIMARY KEY, cat_id, chat_id, msg_id,
preview_text)`), a per-chat aiogram FSM conversation state, and the
message/callback handlers modelled as pure state transformers that also
record the outbound platform calls they attempt.  An oracle `Nat → Bool`
decides whether the i-th outbound call attempted by a handler invocation
succeeds; an uncaught transport failure aborts the rest of the handler,
exactly as a raised exception does in the Python code, while the
`try/except` around the copy loop in `show_category` swallows per-item
failures.  SQLite `INTEGER PRIMARY KEY` rowids are modelled as
`max existing id + 1`, and table scans return rows in rowid (insertion)
order, as SQLite does for these unindexed queries.
-/

namespace Bot

/-- Python strings are sequences of code points; we embed them as `List Char`. -/
abbrev Text := List Char

/-- Category row of `categories (id INTEGER PRIMARY KEY, name TEXT UNIQUE)`;
`name` may be NULL (`none`). -/
structure Category where
  id : Nat
  name : Option Text
deriving DecidableEq

/-- Task row of `tasks (id INTEGER PRIMARY KEY, cat_id, chat_id, msg_id,
preview_text)`; `cat_id` may be NULL (`none`). -/
structure Task where
  id : Nat
  cat_id : Option Nat
  chat_id : Int
  msg_id : Nat
  preview_text : Text
deriving DecidableEq

/-- The relational store, rows kept in rowid order. -/
structure Store where
  categories : List Category
  tasks : List Task
deriving DecidableEq

/-- The empty store produced by the `CREATE TABLE` statements at startup. -/
def Store.empty : Store := ⟨[], []⟩

/-- Conversation FSM positions: aiogram state `None` is `idle`; the three
members of `BotState` are the waiting states. -/
inductive FsmState where
  | idle
  | waiting_content
  | waiting_new_category_name
  | waiting_rename_category
deriving DecidableEq

/-- Per-chat conversation record: FSM state plus the two scratch keys kept
in `FSMContext` data. -/
structure ConvState where
  state : FsmState
  current_cat_id : Option Nat
  rename_cat_id : Option Nat
deriving DecidableEq

/-- Result of `state.clear()`: state `None` and empty scratch data. -/
def ConvState.cleared : ConvState := ⟨.idle, none, none⟩

/-- Model of `state.set_state(..)`: scratch data is not touched. -/
def ConvState.setState (cs : ConvState) (st : FsmState) : ConvState :=
  ⟨st, cs.current_cat_id, cs.rename_cat_id⟩

/-- Model of `state.update_data(current_cat_id=..)`. -/
def ConvState.setCurrentCat (cs : ConvState) (v : Option Nat) : ConvState :=
  ⟨cs.state, v, cs.rename_cat_id⟩

/-- Model of `state.update_data(rename_cat_id=..)`. -/
def ConvState.setRenameCat (cs : ConvState) (v : Option Nat) : ConvState :=
  ⟨cs.state, cs.current_cat_id, v⟩

/-- Inbound message event: `text` and `caption` may be absent (media). -/
structure Msg where
  text : Option Text
  caption : Option Text
  chat_id : Int
  message_id : Nat
deriving DecidableEq

/-- The `Action` enum of the callback payloads. -/
inductive Action where
  | delete_task
  | delete_cat
  | rename_cat
  | settings
deriving DecidableEq

/-- Payload of a `TaskCB` callback (callback-data class with prefix tag t). -/
structure TaskCB where
  action : Action
  id : Nat
deriving DecidableEq

/-- Payload of a `CategoryCB` callback (callback-data class with prefix tag c). -/
structure CategoryCB where
  action : Action
  id : Nat
deriving DecidableEq

/-- A callback query carries either a task payload or a category payload. -/
inductive CbData where
  | task (d : TaskCB)
  | cat (d : CategoryCB)
deriving DecidableEq

/-- Tags for the fixed outbound message texts of the handlers; the
constructors carrying a `Text` or `Option Text` interpolate the variable
part exactly as the corresponding Python f-string does. -/
inductive OutText where
  | mainMenuTitle
  | enterCategoryName
  | categoryCreated (n : Option Text)
  | contentOf (n : Text)
  | settingsTitle
  | controlPanel
  | enterNewName
  | categoryRenamed (n : Option Text)
  | sendContent
  | savedMsg
  | deletedMsg
  | categoryDeletedMsg
  | returningMain
deriving DecidableEq

/-- Keyboards produced by `KeyboardFactory` (plus the inline two-button
builder in `show_category`).  `main_menu` carries the flat button label
list; the two-per-row `adjust(2)` layout is presentational only. -/
inductive Keyboard where
  | main_menu (labels : List Text)
  | cancel_kb
  | task_inline (task_id : Nat)
  | category_settings_btn (cat_id : Nat)
  | category_mgmt_menu (cat_id : Nat)
  | addToCancel (cat_name : Text)
deriving DecidableEq

/-- An attempted outbound platform call. -/
inductive Call where
  | send (text : OutText) (kb : Keyboard)
  | copyMessage (from_chat : Int) (msg_id : Nat) (task_id : Nat)
  | editText (text : OutText) (kb : Keyboard)
  | deleteMessage
  | ack (text : Option OutText) (show_alert : Bool)
deriving DecidableEq

/-- Result of one handler invocation: the store and conversation state it
leaves behind, the outbound calls it attempted in order (a failing call is
still attempted), and whether the handler ran to completion without an
uncaught exception. -/
structure HResult where
  store : Store
  conv : ConvState
  calls : List Call
  ok : Bool
deriving DecidableEq

/-- Next rowid a SQLite `INTEGER PRIMARY KEY` column assigns: one more
than the largest existing id (1 for an empty table). -/
def nextCatId (cats : List Category) : Nat :=
  (cats.foldl (fun a c => Nat.max a c.id) 0) + 1

/-- Next task rowid, same SQLite rule. -/
def nextTaskId (ts : List Task) : Nat :=
  (ts.foldl (fun a t => Nat.max a t.id) 0) + 1

/-- Model of `INSERT OR IGNORE INTO categories (name) VALUES (?)`: a
non-NULL name already present is ignored (UNIQUE constraint); NULL names
never conflict, so a NULL insert always appends. -/
def insertCategory (cats : List Category) (v : Option Text) : List Category :=
  match v with
  | some n =>
      if cats.any (fun c => decide (c.name = some n)) then cats
      else cats ++ [⟨nextCatId cats, some n⟩]
  | none => cats ++ [⟨nextCatId cats, none⟩]

/-- Model of `UPDATE categories SET name = ? WHERE id = ?`: no matching
row (including a NULL target id) is a silent no-op; a matching row whose
new non-NULL name collides with a different row violates the UNIQUE
constraint and raises, leaving the table unchanged. -/
def updateCategoryName (cats : List Category) (target : Option Nat)
    (v : Option Text) : Except Unit (List Category) :=
  match target with
  | none => .ok cats
  | some k =>
      if cats.any (fun c => decide (c.id = k)) then
        if v.isSome && cats.any (fun c => decide (c.id ≠ k ∧ c.name = v)) then
          .error ()
        else
          .ok (cats.map (fun c => if c.id = k then ⟨c.id, v⟩ else c))
      else .ok cats

/-- Model of `INSERT INTO tasks (cat_id, chat_id, msg_id, preview_text)`. -/
def insertTask (ts : List Task) (cat_id : Option Nat) (chat : Int)
    (mid : Nat) (pv : Text) : List Task :=
  ts ++ [⟨nextTaskId ts, cat_id, chat, mid, pv⟩]

/-- Model of `SELECT id, chat_id, msg_id FROM tasks WHERE cat_id = ?`,
returned in rowid order. -/
def tasksOfCat (s : Store) (cid : Nat) : List Task :=
  s.tasks.filter (fun t => decide (t.cat_id = some cid))

/-- Model of `SELECT id FROM categories WHERE name = ?` with `fetchone`:
first matching row in rowid order. -/
def find_category_by_name (s : Store) (n : Text) : Option Nat :=
  (s.categories.find? (fun c => decide (c.name = some n))).map Category.id

/-- Python renders a NULL name as the string None inside an f-string. -/
def renderName (n : Option Text) : Text :=
  match n with
  | some t => t
  | none => "None".toList

/-- Button labels of `KeyboardFactory.main_menu`: one folder-glyph button
per category, read from the store at render time, then the fixed
new-category button. -/
def mainMenuLabels (s : Store) : List Text :=
  s.categories.map (fun c => '📁' :: ' ' :: renderName c.name)
    ++ ["➕ New Category".toList]

/-- Derivation of `preview_text` in `save_task`:
`(message.text or message.caption or "Media")[:20]` — Python `or` skips
falsy values, so an absent OR empty text falls through to the caption and
then to the placeholder. -/
def previewOf (text caption : Option Text) : Text :=
  (match text, caption with
   | some (c :: cs), _ => c :: cs
   | _, some (c :: cs) => c :: cs
   | _, _ => "Media".toList).take 20

/-- Literal cancel-button text. -/
def cancelText : Text := "❌ Cancel".toList

/-- Literal new-category button text. -/
def newCategoryText : Text := "➕ New Category".toList

/-- Two-character tag of every category button: folder glyph plus space. -/
def folderTag : Text := "📁 ".toList

/-- Tag of the add-to-category button text. -/
def addToTag : Text := "➕ Add to ".toList

/-- First whitespace-delimited token of a text. -/
def firstWord (t : Text) : Text := t.takeWhile (fun c => decide (c ≠ ' '))

/-- Model of the aiogram Command filter for the start command: the leading
token is the command, optionally with a bot mention suffix. -/
def isStartCommand (m : Msg) : Bool :=
  match m.text with
  | some t =>
      decide (firstWord t = "/start".toList)
        || "/start@".toList.isPrefixOf (firstWord t)
  | none => false

/-- Handler `cmd_start` (start command or cancel text): `state.clear()`
first, then one send of the main menu read from the store. -/
def cmd_start (o : Nat → Bool) (s : Store) (cs : ConvState) : HResult :=
  let _ := cs
  ⟨s, ConvState.cleared,
    [Call.send .mainMenuTitle (.main_menu (mainMenuLabels s))], o 0⟩

/-- Handler `add_cat_init` (new-category button): sends the name prompt
FIRST and only then sets the waiting state, so a failed prompt leaves the
conversation state untouched. -/
def add_cat_init (o : Nat → Bool) (s : Store) (cs : ConvState) : HResult :=
  let calls := [Call.send .enterCategoryName .cancel_kb]
  if o 0 then ⟨s, cs.setState .waiting_new_category_name, calls, true⟩
  else ⟨s, cs, calls, false⟩

/-- Handler `save_category` (any message while waiting for a category
name): insert-or-ignore, commit, clear state, echo the refreshed menu. -/
def save_category (o : Nat → Bool) (s : Store) (cs : ConvState)
    (m : Msg) : HResult :=
  let _ := cs
  let s1 : Store := ⟨insertCategory s.categories m.text, s.tasks⟩
  ⟨s1, ConvState.cleared,
    [Call.send (.categoryCreated m.text) (.main_menu (mainMenuLabels s1))], o 0⟩

/-- Handler `show_category` (text starting with the folder tag, here
passed as `t`): parse the name by dropping the two tag characters, look
the category up; if absent return silently; otherwise record
`current_cat_id`, attempt one copy per stored task of the category with
per-item failures swallowed, then send the add-to keyboard and the
settings button. -/
def show_category (o : Nat → Bool) (s : Store) (cs : ConvState)
    (t : Text) : HResult :=
  let cat_name := t.drop 2
  match s.categories.find? (fun c => decide (c.name = some cat_name)) with
  | none => ⟨s, cs, [], true⟩
  | some cat =>
      let cs1 := cs.setCurrentCat (some cat.id)
      let ts := tasksOfCat s cat.id
      let copies := ts.map (fun tk => Call.copyMessage tk.chat_id tk.msg_id tk.id)
      let n := copies.length
      let c1 := Call.send (.contentOf cat_name) (.addToCancel cat_name)
      let c2 := Call.send .settingsTitle (.category_settings_btn cat.id)
      if o n then ⟨s, cs1, copies ++ [c1, c2], o (n + 1)⟩
      else ⟨s, cs1, copies ++ [c1], false⟩

/-- Handler `category_settings` (settings callback): edit the message to
the management menu, then acknowledge; no state or store change. -/
def category_settings (o : Nat → Bool) (s : Store) (cs : ConvState)
    (d : CategoryCB) : HResult :=
  let c1 := Call.editText .controlPanel (.category_mgmt_menu d.id)
  if o 0 then ⟨s, cs, [c1, Call.ack none false], o 1⟩
  else ⟨s, cs, [c1], false⟩

/-- Handler `rename_cat_init` (rename callback): record `rename_cat_id`
in scratch, send the prompt, THEN set the waiting state, then acknowledge
— a failed prompt leaves the scratch set but the state unentered. -/
def rename_cat_init (o : Nat → Bool) (s : Store) (cs : ConvState)
    (d : CategoryCB) : HResult :=
  let cs1 := cs.setRenameCat (some d.id)
  let c1 := Call.send .enterNewName .cancel_kb
  if o 0 then
    ⟨s, cs1.setState .waiting_rename_category, [c1, Call.ack none false], o 1⟩
  else ⟨s, cs1, [c1], false⟩

/-- Handler `save_renamed_category` (any message while waiting for the
new name): unconditional UPDATE of the target row; a UNIQUE violation
raises out of the handler before commit, clear or echo. -/
def save_renamed_category (o : Nat → Bool) (s : Store) (cs : ConvState)
    (m : Msg) : HResult :=
  match updateCategoryName s.categories cs.rename_cat_id m.text with
  | .error _ => ⟨s, cs, [], false⟩
  | .ok cats =>
      let s1 : Store := ⟨cats, s.tasks⟩
      ⟨s1, ConvState.cleared,
        [Call.send (.categoryRenamed m.text) (.main_menu (mainMenuLabels s1))],
        o 0⟩

/-- Handler `add_task_init` (add-to-category button): sends the content
prompt FIRST and only then sets the waiting state. -/
def add_task_init (o : Nat → Bool) (s : Store) (cs : ConvState) : HResult :=
  let calls := [Call.send .sendContent .cancel_kb]
  if o 0 then ⟨s, cs.setState .waiting_content, calls, true⟩
  else ⟨s, cs, calls, false⟩

/-- Handler `save_task` (any message while waiting for content): insert a
task under the scratch `current_cat_id` (possibly NULL), commit, clear
state, echo the menu. -/
def save_task (o : Nat → Bool) (s : Store) (cs : ConvState) (m : Msg) : HResult :=
  let pv := previewOf m.text m.caption
  let s1 : Store :=
    ⟨s.categories, insertTask s.tasks cs.current_cat_id m.chat_id m.message_id pv⟩
  ⟨s1, ConvState.cleared,
    [Call.send .savedMsg (.main_menu (mainMenuLabels s1))], o 0⟩

/-- Handler `delete_task` (task-delete callback): delete the row, commit,
remove the rendered message, acknowledge. -/
def delete_task (o : Nat → Bool) (s : Store) (cs : ConvState)
    (d : TaskCB) : HResult :=
  let s1 : Store := ⟨s.categories, s.tasks.filter (fun t => decide (t.id ≠ d.id))⟩
  if o 0 then ⟨s1, cs, [Call.deleteMessage, Call.ack (some .deletedMsg) false], o 1⟩
  else ⟨s1, cs, [Call.deleteMessage], false⟩

/-- Handler `delete_category` (category-delete callback): delete the
category tasks, then the category row, commit, then alert-acknowledge,
post a fresh menu read after the deletion, and remove the panel message.
Conversation state (including scratch) is not touched. -/
def delete_category (o : Nat → Bool) (s : Store) (cs : ConvState)
    (d : CategoryCB) : HResult :=
  let s1 : Store := ⟨s.categories.filter (fun c => decide (c.id ≠ d.id)),
                     s.tasks.filter (fun t => decide (t.cat_id ≠ some d.id))⟩
  let c1 := Call.ack (some .categoryDeletedMsg) true
  if o 0 then
    let c2 := Call.send .returningMain (.main_menu (mainMenuLabels s1))
    if o 1 then ⟨s1, cs, [c1, c2, Call.deleteMessage], o 2⟩
    else ⟨s1, cs, [c1, c2], false⟩
  else ⟨s1, cs, [c1], false⟩

/-- Message routing in handler registration order: start/cancel, the
new-category button, the waiting-name state, the folder tag, the
waiting-rename state, the add-to tag, the waiting-content state; an
unmatched message is ignored. -/
def dispatchMessage (o : Nat → Bool) (s : Store) (cs : ConvState)
    (m : Msg) : HResult :=
  if isStartCommand m || decide (m.text = some cancelText) then
    cmd_start o s cs
  else if decide (m.text = some newCategoryText) then
    add_cat_init o s cs
  else if decide (cs.state = .waiting_new_category_name) then
    save_category o s cs m
  else if (match m.text with
           | some t => folderTag.isPrefixOf t
           | none => false) then
    show_category o s cs (m.text.getD [])
  else if decide (cs.state = .waiting_rename_category) then
    save_renamed_category o s cs m
  else if (match m.text with
           | some t => addToTag.isPrefixOf t
           | none => false) then
    add_task_init o s cs
  else if decide (cs.state = .waiting_content) then
    save_task o s cs m
  else ⟨s, cs, [], true⟩

/-- Callback routing: the four callback filters are mutually exclusive
on (payload class, action). -/
def dispatchCallback (o : Nat → Bool) (s : Store) (cs : ConvState)
    (c : CbData) : HResult :=
  match c with
  | .cat d =>
      match d.action with
      | .settings => category_settings o s cs d
      | .rename_cat => rename_cat_init o s cs d
      | .delete_cat => delete_category o s cs d
      | _ => ⟨s, cs, [], true⟩
  | .task d =>
      match d.action with
      | .delete_task => delete_task o s cs d
      | _ => ⟨s, cs, [], true⟩

/-- One inbound platform event together with the transport oracle for the
outbound calls its handler attempts. -/
inductive Event where
  | message (m : Msg) (o : Nat → Bool)
  | callback (c : CbData) (o : Nat → Bool)

/-- Store and conversation state reached after dispatching one event. -/
def step (p : Store × ConvState) (e : Event) : Store × ConvState :=
  match e with
  | .message m o =>
      let r := dispatchMessage o p.1 p.2 m
      (r.store, r.conv)
  | .callback c o =>
      let r := dispatchCallback o p.1 p.2 c
      (r.store, r.conv)

/-- State reached from a fresh start (empty schema, idle chat) after a
sequence of events. -/
def run (es : List Event) : Store × ConvState :=
  es.foldl step (Store.empty, ConvState.cleared)

/-- Referential invariant of the spec, decidably: every stored task's
`cat_id` is the id of some stored category (in particular not NULL). -/
def taskRefsOkB (s : Store) : Bool :=
  s.tasks.all (fun t => s.categories.any (fun c => decide (t.cat_id = some c.id)))

/-- Primary-key property of the categories table: pairwise distinct ids. -/
def uniqueIds (s : Store) : Prop :=
  s.categories.Pairwise (fun a b => a.id ≠ b.id)

/-- UNIQUE-constraint property of the categories table: two rows may only
share a name when that name is NULL. -/
def uniqueNames (s : Store) : Prop :=
  s.categories.Pairwise (fun a b => a.name = b.name → a.name = none)

/-- Task rows listed in strictly increasing id order. -/
def taskIdsSorted (ts : List Task) : Prop :=
  ts.Pairwise (fun a b => a.id < b.id)

/-- Task ids of the copy (replay) calls in a call list, in order. -/
def copyIds (calls : List Call) : List Nat :=
  calls.filterMap (fun c =>
    match c with
    | .copyMessage _ _ tid => some tid
    | _ => none)

/-- Recognizer of copy (replay) calls. -/
def isCopy (c : Call) : Bool :=
  match c with
  | .copyMessage _ _ _ => true
  | _ => false

lemma le_foldl_max (ts : List Task) (acc : Nat) :
    acc ≤ ts.foldl (fun a t => Nat.max a t.id) acc := by
  induction ts generalizing acc with
  | nil => exact le_refl _
  | cons x xs ih =>
      simp only [List.foldl_cons]
      exact le_trans (Nat.le_max_left _ _) (ih _)

lemma id_le_foldl_max (ts : List Task) :
    ∀ acc : Nat, ∀ t ∈ ts, t.id ≤ ts.foldl (fun a x => Nat.max a x.id) acc := by
  induction ts with
  | nil => intro acc t h; cases h
  | cons x xs ih =>
      intro acc t h
      simp only [List.foldl_cons]
      rcases List.mem_cons.1 h with rfl | h
      · exact le_trans (Nat.le_max_right acc t.id) (le_foldl_max xs _)
      · exact ih _ t h

lemma lt_nextTaskId (ts : List Task) (t : Task) (h : t ∈ ts) :
    t.id < nextTaskId ts :=
  Nat.lt_succ_of_le (id_le_foldl_max ts 0 t h)

lemma taskIdsSorted_insertTask (ts : List Task) (h : taskIdsSorted ts)
    (cid : Option Nat) (chat : Int) (mid : Nat) (pv : Text) :
    taskIdsSorted (insertTask ts cid chat mid pv) := by
  unfold insertTask taskIdsSorted
  refine List.pairwise_append.2 ⟨h, List.pairwise_singleton _ _, ?_⟩
  intro a ha b hb
  rw [List.mem_singleton] at hb
  subst hb
  exact lt_nextTaskId ts a ha

lemma taskIdsSorted_filter (ts : List Task) (h : taskIdsSorted ts)
    (p : Task → Bool) : taskIdsSorted (ts.filter p) :=
  List.Pairwise.sublist (List.filter_sublist ts) h

lemma cmd_start_tasks (o : Nat → Bool) (s : Store) (cs : ConvState) :
    (cmd_start o s cs).store.tasks = s.tasks := rfl

lemma add_cat_init_store (o : Nat → Bool) (s : Store) (cs : ConvState) :
    (add_cat_init o s cs).store = s := by
  unfold add_cat_init
  split <;> rfl

lemma save_category_tasks (o : Nat → Bool) (s : Store) (cs : ConvState)
    (m : Msg) : (save_category o s cs m).store.tasks = s.tasks := rfl

lemma show_category_store (o : Nat → Bool) (s : Store) (cs : ConvState)
    (t : Text) : (show_category o s cs t).store = s := by
  unfold show_category
  dsimp only
  split
  · rfl
  · split <;> rfl

lemma category_settings_store (o : Nat → Bool) (s : Store) (cs : ConvState)
    (d : CategoryCB) : (category_settings o s cs d).store = s := by
  unfold category_settings
  split <;> rfl

lemma rename_cat_init_store (o : Nat → Bool) (s : Store) (cs : ConvState)
    (d : CategoryCB) : (rename_cat_init o s cs d).store = s := by
  unfold rename_cat_init
  split <;> rfl

lemma save_renamed_category_tasks (o : Nat → Bool) (s : Store)
    (cs : ConvState) (m : Msg) :
    (save_renamed_category o s cs m).store.tasks = s.tasks := by
  unfold save_renamed_category
  cases updateCategoryName s.categories cs.rename_cat_id m.text with
  | error e => rfl
  | ok cats => rfl

lemma add_task_init_store (o : Nat → Bool) (s : Store) (cs : ConvState) :
    (add_task_init o s cs).store = s := by
  unfold add_task_init
  split <;> rfl

lemma save_task_tasks (o : Nat → Bool) (s : Store) (cs : ConvState)
    (m : Msg) :
    (save_task o s cs m).store.tasks =
      insertTask s.tasks cs.current_cat_id m.chat_id m.message_id
        (previewOf m.text m.caption) := rfl

lemma delete_task_tasks (o : Nat → Bool) (s : Store) (cs : ConvState)
    (d : TaskCB) :
    (delete_task o s cs d).store.tasks =
      s.tasks.filter (fun t => decide (t.id ≠ d.id)) := by
  unfold delete_task
  split <;> rfl

lemma delete_category_store (o : Nat → Bool) (s : Store) (cs : ConvState)
    (d : CategoryCB) :
    (delete_category o s cs d).store =
      ⟨s.categories.filter (fun c => decide (c.id ≠ d.id)),
       s.tasks.filter (fun t => decide (t.cat_id ≠ some d.id))⟩ := by
  unfold delete_category
  split
  · split <;> rfl
  · rfl

lemma step_tasksSorted (p : Store × ConvState) (e : Event)
    (h : taskIdsSorted p.1.tasks) : taskIdsSorted (step p e).1.tasks := by
  cases e with
  | message m o =>
      show taskIdsSorted (dispatchMessage o p.1 p.2 m).store.tasks
      unfold dispatchMessage
      split
      · rwa [cmd_start_tasks]
      split
      · rwa [add_cat_init_store]
      split
      · rwa [save_category_tasks]
      split
      · rwa [show_category_store]
      split
      · rwa [save_renamed_category_tasks]
      split
      · rwa [add_task_init_store]
      split
      · rw [save_task_tasks]
        exact taskIdsSorted_insertTask _ h _ _ _ _
      · exact h
  | callback c o =>
      show taskIdsSorted (dispatchCallback o p.1 p.2 c).store.tasks
      unfold dispatchCallback
      cases c with
      | cat d =>
          obtain ⟨act, k⟩ := d
          cases act
          · exact h
          · rw [show (delete_category o p.1 p.2 ⟨.delete_cat, k⟩).store.tasks =
                  p.1.tasks.filter (fun t => decide (t.cat_id ≠ some k)) from
                  congrArg Store.tasks (delete_category_store o p.1 p.2 ⟨.delete_cat, k⟩)]
            exact taskIdsSorted_filter _ h _
          · rwa [rename_cat_init_store]
          · rwa [category_settings_store]
      | task d =>
          obtain ⟨act, k⟩ := d
          cases act
          · rw [delete_task_tasks]
            exact taskIdsSorted_filter _ h _
          · exact h
          · exact h
          · exact h

lemma foldl_tasksSorted (es : List Event) (p : Store × ConvState)
    (h : taskIdsSorted p.1.tasks) :
    taskIdsSorted ((es.foldl step p)).1.tasks := by
  induction es generalizing p with
  | nil => exact h
  | cons e es ih =>
      simp only [List.foldl_cons]
      exact ih _ (step_tasksSorted p e h)

lemma run_tasksSorted (es : List Event) : taskIdsSorted (run es).1.tasks :=
  foldl_tasksSorted es _ List.Pairwise.nil

lemma updateCategoryName_ids (cats : List Category) (target : Option Nat)
    (v : Option Text) (cats' : List Category)
    (h : updateCategoryName cats target v = .ok cats') :
    cats'.map Category.id = cats.map Category.id := by
  cases target with
  | none =>
      simp only [updateCategoryName] at h
      cases h
      rfl
  | some k =>
      simp only [updateCategoryName] at h
      split at h
      · split at h
        · cases h
        · injection h with h
          subst h
          rw [List.map_map]
          refine List.map_congr_left ?_
          intro c _
          by_cases hc : c.id = k <;> simp [hc]
      · injection h with h
        subst h
        rfl

/-- Claim C4: handling the category-delete callback for a category id
deletes all that category's tasks and the category row itself; afterward
the store holds zero tasks referencing the id and no category row with
the id, for every transport oracle. -/
theorem C4_delete_category_purges (o : Nat → Bool) (s : Store)
    (cs : ConvState) (d : CategoryCB) :
    (delete_category o s cs d).store =
      ⟨s.categories.filter (fun c => decide (c.id ≠ d.id)),
       s.tasks.filter (fun t => decide (t.cat_id ≠ some d.id))⟩ ∧
    ((delete_category o s cs d).store.tasks.countP
        (fun t => decide (t.cat_id = some d.id))) = 0 ∧
    ((delete_category o s cs d).store.categories.countP
        (fun c => decide (c.id = d.id))) = 0 := by
  refine ⟨delete_category_store o s cs d, ?_, ?_⟩
  · rw [delete_category_store]
    rw [List.countP_eq_zero]
    intro t ht
    have h2 := (List.mem_filter.1 ht).2
    simp only [decide_eq_true_eq] at h2 ⊢
    exact h2
  · rw [delete_category_store]
    rw [List.countP_eq_zero]
    intro c hc
    have h2 := (List.mem_filter.1 hc).2
    simp only [decide_eq_true_eq] at h2 ⊢
    exact h2

/-- Claim C9: renaming a category (for every target id and new name,
including the failing UNIQUE-violation path) leaves every task row
untouched and changes no category id; only a name field can change. -/
theorem C9_rename_frame (o : Nat → Bool) (s : Store) (cs : ConvState)
    (m : Msg) :
    (save_renamed_category o s cs m).store.tasks = s.tasks ∧
    (save_renamed_category o s cs m).store.categories.map Category.id =
      s.categories.map Category.id := by
  refine ⟨save_renamed_category_tasks o s cs m, ?_⟩
  unfold save_renamed_category
  cases hu : updateCategoryName s.categories cs.rename_cat_id m.text with
  | error e => rfl
  | ok cats => exact updateCategoryName_ids _ _ _ _ hu

/-- Claim C8: a reset event (start command or the cancel button text)
clears the conversation state and all scratch back to Idle no matter the
prior state, and the single outbound call is a main menu whose category
buttons are exactly the store's category list at render time. -/
theorem C8_reset_main_menu (o : Nat → Bool) (s : Store) (cs : ConvState)
    (m : Msg) (h : isStartCommand m = true ∨ m.text = some cancelText) :
    (dispatchMessage o s cs m).conv = ConvState.cleared ∧
    (dispatchMessage o s cs m).store = s ∧
    (dispatchMessage o s cs m).calls =
      [Call.send .mainMenuTitle (.main_menu (mainMenuLabels s))] ∧
    mainMenuLabels s =
      s.categories.map (fun c => '📁' :: ' ' :: renderName c.name)
        ++ ["➕ New Category".toList] := by
  have hc : (isStartCommand m || decide (m.text = some cancelText)) = true := by
    rcases h with h | h
    · simp [h]
    · simp [h]
  unfold dispatchMessage
  rw [if_pos hc]
  exact ⟨rfl, rfl, rfl, rfl⟩

/-- Witness for C8 at a concrete input: the cancel text sent from the
waiting-content state with stale scratch resets everything and renders
the current one-category menu. -/
theorem C8_reset_main_menu_witness :
    (dispatchMessage (fun _ => true) ⟨[⟨1, some "W".toList⟩], []⟩
        ⟨.waiting_content, some 1, some 1⟩
        ⟨some cancelText, none, 5, 7⟩).conv = ConvState.cleared ∧
    (dispatchMessage (fun _ => true) ⟨[⟨1, some "W".toList⟩], []⟩
        ⟨.waiting_content, some 1, some 1⟩
        ⟨some cancelText, none, 5, 7⟩).store = ⟨[⟨1, some "W".toList⟩], []⟩ := by
  have h := C8_reset_main_menu (fun _ => true) ⟨[⟨1, some "W".toList⟩], []⟩
    ⟨.waiting_content, some 1, some 1⟩ ⟨some cancelText, none, 5, 7⟩
    (Or.inr rfl)
  exact ⟨h.1, h.2.1⟩

/-- Counterexample to claim C3 as stated: when the outbound prompt of the
new-category button fails, the conversation does NOT enter
WaitingNewCategoryName (the send precedes `set_state`), so the prescribed
transition does not happen regardless of echo success. -/
theorem C3_counterexample :
    (add_cat_init (fun _ => false) Store.empty ConvState.cleared).conv.state
        ≠ FsmState.waiting_new_category_name ∧
    (add_cat_init (fun _ => true) Store.empty ConvState.cleared).conv.state
        = FsmState.waiting_new_category_name := by
  exact ⟨by decide, by decide⟩

/-- Amended claim C3: handlers that complete an action settle Store and
Conversation State before their outbound echo, so those transitions hold
for every oracle; but the three prompt handlers (`add_cat_init`,
`rename_cat_init`, `add_task_init`) send the prompt before `set_state`,
so the waiting state is entered exactly when the prompt send succeeds
(the state is left unchanged, not corrupted, on failure — except that
`rename_cat_init` has already recorded `rename_cat_id`). -/
theorem C3_amended_state_vs_transport (o : Nat → Bool) (s : Store)
    (cs : ConvState) (m : Msg) (d : CategoryCB) :
    (cmd_start o s cs).conv = ConvState.cleared ∧
    (cmd_start o s cs).store = s ∧
    (save_category o s cs m).conv = ConvState.cleared ∧
    (save_category o s cs m).store = (save_category (fun _ => true) s cs m).store ∧
    (save_renamed_category o s cs m).conv =
      (save_renamed_category (fun _ => true) s cs m).conv ∧
    (save_renamed_category o s cs m).store =
      (save_renamed_category (fun _ => true) s cs m).store ∧
    (save_task o s cs m).conv = ConvState.cleared ∧
    (save_task o s cs m).store = (save_task (fun _ => true) s cs m).store ∧
    (add_cat_init o s cs).conv =
      (if o 0 then cs.setState .waiting_new_category_name else cs) ∧
    (add_task_init o s cs).conv =
      (if o 0 then cs.setState .waiting_content else cs) ∧
    (rename_cat_init o s cs d).conv =
      (if o 0 then (cs.setRenameCat (some d.id)).setState .waiting_rename_category
       else cs.setRenameCat (some d.id)) := by
  refine ⟨rfl, rfl, rfl, rfl, ?_, ?_, rfl, rfl, ?_, ?_, ?_⟩
  · cases hu : updateCategoryName s.categories cs.rename_cat_id m.text with
    | error e => simp [save_renamed_category, hu]
    | ok cats => simp [save_renamed_category, hu]
  · cases hu : updateCategoryName s.categories cs.rename_cat_id m.text with
    | error e => simp [save_renamed_category, hu]
    | ok cats => simp [save_renamed_category, hu]
  · unfold add_cat_init
    cases h : o 0 <;> simp [h]
  · unfold add_task_init
    cases h : o 0 <;> simp [h]
  · unfold rename_cat_init
    cases h : o 0 <;> simp [h]

lemma filter_isCopy_copies (ts : List Task) :
    (ts.map (fun tk => Call.copyMessage tk.chat_id tk.msg_id tk.id)).filter isCopy
      = ts.map (fun tk => Call.copyMessage tk.chat_id tk.msg_id tk.id) := by
  induction ts with
  | nil => rfl
  | cons x xs ih => simp [List.filter_cons, isCopy, ih]

/-- Claim C6: opening a category attempts exactly one replay (copy) call
per stored task of that category — hence at most N outbound replay calls
for N tasks — and the attempted copy set does not depend on the oracle:
a failing copy is skipped and every remaining task is still attempted. -/
theorem C6_replay_never_aborts (o : Nat → Bool) (s : Store)
    (cs : ConvState) (t : Text) (cat : Category)
    (hfind : s.categories.find?
      (fun c => decide (c.name = some (t.drop 2))) = some cat) :
    (show_category o s cs t).calls.filter isCopy =
      (tasksOfCat s cat.id).map
        (fun tk => Call.copyMessage tk.chat_id tk.msg_id tk.id) ∧
    ((show_category o s cs t).calls.filter isCopy).length =
      (tasksOfCat s cat.id).length ∧
    ((show_category o s cs t).calls.filter isCopy).length ≤
      (tasksOfCat s cat.id).length := by
  have hmain : (show_category o s cs t).calls.filter isCopy =
      (tasksOfCat s cat.id).map
        (fun tk => Call.copyMessage tk.chat_id tk.msg_id tk.id) := by
    unfold show_category
    dsimp only
    rw [hfind]
    split
    · next heq => cases heq
    · next cat2 heq =>
        injection heq with heq
        subst heq
        split
        · rw [List.filter_append, filter_isCopy_copies]
          simp [isCopy]
        · rw [List.filter_append, filter_isCopy_copies]
          simp [isCopy]
  refine ⟨hmain, ?_, ?_⟩
  · rw [hmain, List.length_map]
  · rw [hmain, List.length_map]

/-- Shared concrete store: one category W (id 1) holding tasks 1 and 2. -/
def wStore : Store :=
  ⟨[⟨1, some "W".toList⟩],
   [⟨1, some 1, 5, 10, "a".toList⟩, ⟨2, some 1, 5, 11, "b".toList⟩]⟩

/-- Witness for C6 at a concrete input: with an oracle failing the first
copy, both copies are still attempted. -/
theorem C6_replay_never_aborts_witness :
    (show_category (fun n => decide (n ≠ 0)) wStore ConvState.cleared
        ('📁' :: ' ' :: "W".toList)).calls.filter isCopy
      = [Call.copyMessage 5 10 1, Call.copyMessage 5 11 2] := by
  have h := C6_replay_never_aborts (fun n => decide (n ≠ 0)) wStore
    ConvState.cleared ('📁' :: ' ' :: "W".toList) ⟨1, some "W".toList⟩
    (by decide)
  rw [h.1]
  rfl

lemma insertCategory_noop (cats : List Category) (n : Text)
    (h : cats.any (fun c => decide (c.name = some n)) = true) :
    insertCategory cats (some n) = cats := by
  simp only [insertCategory]
  rw [if_pos h]

lemma countP_insertCategory (cats : List Category) (n : Text)
    (h : cats.countP (fun c => decide (c.name = some n)) ≤ 1) :
    (insertCategory cats (some n)).countP
      (fun c => decide (c.name = some n)) = 1 := by
  simp only [insertCategory]
  split
  · next hA =>
      have hpos : 0 < cats.countP (fun c => decide (c.name = some n)) := by
        rw [List.countP_pos_iff]
        obtain ⟨c, hc, hp⟩ := List.any_eq_true.1 hA
        exact ⟨c, hc, hp⟩
      omega
  · next hA =>
      rw [Bool.not_eq_true] at hA
      have hz : cats.countP (fun c => decide (c.name = some n)) = 0 := by
        rw [List.countP_eq_zero]
        intro a ha
        have := List.any_eq_false.1 hA a ha
        exact fun hp => this hp
      rw [List.countP_append, hz]
      simp

/-- Claim C5: submitting the same category name twice while waiting for a
name yields exactly one stored category with that name (given the UNIQUE
constraint held before, i.e. at most one row had the name), and the
second creation leaves the store unchanged rather than erroring. -/
theorem C5_create_twice_idempotent (o1 o2 : Nat → Bool) (s : Store)
    (cs1 cs2 : ConvState) (m1 m2 : Msg) (n : Text)
    (h1 : m1.text = some n) (h2 : m2.text = some n)
    (hc : s.categories.countP (fun c => decide (c.name = some n)) ≤ 1) :
    (save_category o2 (save_category o1 s cs1 m1).store cs2 m2).store =
      (save_category o1 s cs1 m1).store ∧
    (save_category o1 s cs1 m1).store.categories.countP
      (fun c => decide (c.name = some n)) = 1 ∧
    (save_category o2 (save_category o1 s cs1 m1).store cs2 m2).store.categories.countP
      (fun c => decide (c.name = some n)) = 1 ∧
    (save_category o2 (save_category o1 s cs1 m1).store cs2 m2).ok = o2 0 := by
  have hstore1 : (save_category o1 s cs1 m1).store =
      ⟨insertCategory s.categories (some n), s.tasks⟩ := by
    unfold save_category
    rw [h1]
  have hcount1 : (insertCategory s.categories (some n)).countP
      (fun c => decide (c.name = some n)) = 1 :=
    countP_insertCategory s.categories n hc
  have hany : ((insertCategory s.categories (some n)).any
      (fun c => decide (c.name = some n))) = true := by
    rw [List.any_eq_true]
    have hpos : 0 < (insertCategory s.categories (some n)).countP
        (fun c => decide (c.name = some n)) := by omega
    obtain ⟨c, hc1, hc2⟩ := List.countP_pos_iff.1 hpos
    exact ⟨c, hc1, hc2⟩
  have hstore2 : (save_category o2 (save_category o1 s cs1 m1).store cs2 m2).store =
      (save_category o1 s cs1 m1).store := by
    rw [hstore1]
    unfold save_category
    rw [h2]
    dsimp only
    rw [insertCategory_noop _ _ hany]
  refine ⟨hstore2, ?_, ?_, ?_⟩
  · rw [hstore1]
    exact hcount1
  · rw [hstore2, hstore1]
    exact hcount1
  · rw [hstore1]
    unfold save_category
    rw [h2]

/-- Witness for C5 at a concrete input: creating Work twice from the
empty store stores it exactly once and the second submission is a no-op
completing normally. -/
theorem C5_create_twice_idempotent_witness :
    (save_category (fun _ => true)
        (save_category (fun _ => true) Store.empty ConvState.cleared
          ⟨some "Work".toList, none, 5, 1⟩).store ConvState.cleared
        ⟨some "Work".toList, none, 5, 2⟩).store =
      (save_category (fun _ => true) Store.empty ConvState.cleared
        ⟨some "Work".toList, none, 5, 1⟩).store ∧
    (save_category (fun _ => true) Store.empty ConvState.cleared
        ⟨some "Work".toList, none, 5, 1⟩).store.categories.countP
      (fun c => decide (c.name = some "Work".toList)) = 1 := by
  have h := C5_create_twice_idempotent (fun _ => true) (fun _ => true)
    Store.empty ConvState.cleared ConvState.cleared
    ⟨some "Work".toList, none, 5, 1⟩ ⟨some "Work".toList, none, 5, 2⟩
    "Work".toList rfl rfl (by decide)
  exact ⟨h.1, h.2.1⟩

/-- Concrete store with two distinctly named categories A (id 1) and
B (id 2). -/
def c2Store : Store := ⟨[⟨1, some "A".toList⟩, ⟨2, some "B".toList⟩], []⟩

/-- Conversation waiting for B's new name (rename target id 2). -/
def c2Conv : ConvState := ⟨.waiting_rename_category, none, some 2⟩

/-- The rename submission: the name A already held by category 1. -/
def c2Msg : Msg := ⟨some "A".toList, none, 5, 9⟩

/-- Counterexample to claim C2 as stated: renaming category B to the name
A already held by category A does NOT succeed and does NOT produce
duplicate names — the schema's UNIQUE constraint rejects the UPDATE, the
handler aborts, and the store is unchanged with exactly one row named A. -/
theorem C2_counterexample :
    (save_renamed_category (fun _ => true) c2Store c2Conv c2Msg).store = c2Store ∧
    (save_renamed_category (fun _ => true) c2Store c2Conv c2Msg).ok = false ∧
    (save_renamed_category (fun _ => true) c2Store c2Conv
        c2Msg).store.categories.countP
      (fun c => decide (c.name = some "A".toList)) = 1 := by
  exact ⟨by decide, by decide, by decide⟩

lemma uniqueNames_updateCategoryName (cats : List Category)
    (target : Option Nat) (v : Option Text) (cats' : List Category)
    (hi : cats.Pairwise (fun a b => a.id ≠ b.id))
    (hn : cats.Pairwise (fun a b => a.name = b.name → a.name = none))
    (h : updateCategoryName cats target v = .ok cats') :
    cats'.Pairwise (fun a b => a.name = b.name → a.name = none) := by
  cases target with
  | none =>
      simp only [updateCategoryName] at h
      cases h
      exact hn
  | some k =>
      simp only [updateCategoryName] at h
      split at h
      · split at h
        · cases h
        · next hguard =>
            injection h with h
            subst h
            rw [List.pairwise_map]
            refine (hi.and hn).imp_of_mem ?_
            intro a b ha hb hab
            obtain ⟨hid, hrel⟩ := hab
            by_cases hak : a.id = k
            · by_cases hbk : b.id = k
              · exact absurd (hak.trans hbk.symm) hid
              · simp only [if_pos hak, if_neg hbk]
                cases v with
                | none => intro _; rfl
                | some n =>
                    intro hv
                    exfalso
                    apply hguard
                    rw [Bool.and_eq_true]
                    refine ⟨rfl, ?_⟩
                    rw [List.any_eq_true]
                    refine ⟨b, hb, ?_⟩
                    rw [decide_eq_true_eq]
                    exact ⟨hbk, hv.symm⟩
            · by_cases hbk : b.id = k
              · simp only [if_neg hak, if_pos hbk]
                cases v with
                | none => intro hv; exact hv
                | some n =>
                    intro hv
                    exfalso
                    apply hguard
                    rw [Bool.and_eq_true]
                    refine ⟨rfl, ?_⟩
                    rw [List.any_eq_true]
                    refine ⟨a, ha, ?_⟩
                    rw [decide_eq_true_eq]
                    exact ⟨hak, hv⟩
              · simp only [if_neg hak, if_neg hbk]
                exact hrel
      · injection h with h
        subst h
        exact hn

/-- Amended claim C2: `save_renamed_category` itself performs no
uniqueness check, but the schema's UNIQUE constraint on `name` makes the
UPDATE raise whenever a different category already holds the (non-NULL)
new name: the handler then aborts with the store unchanged, so renaming
can never produce duplicate names — name uniqueness is preserved by every
rename. -/
theorem C2_rename_blocked_by_unique (o : Nat → Bool) (s : Store)
    (cs : ConvState) (m : Msg) (hi : uniqueIds s) (hn : uniqueNames s) :
    uniqueNames (save_renamed_category o s cs m).store ∧
    (∀ k n, cs.rename_cat_id = some k → m.text = some n →
      (∃ c ∈ s.categories, c.id = k) →
      (∃ c ∈ s.categories, c.id ≠ k ∧ c.name = some n) →
      (save_renamed_category o s cs m).store = s ∧
      (save_renamed_category o s cs m).ok = false) := by
  constructor
  · unfold save_renamed_category
    cases hu : updateCategoryName s.categories cs.rename_cat_id m.text with
    | error e => exact hn
    | ok cats => exact uniqueNames_updateCategoryName _ _ _ _ hi hn hu
  · intro k n hk hmn hex hother
    have hc1 : (s.categories.any fun c => decide (c.id = k)) = true := by
      rw [List.any_eq_true]
      obtain ⟨c, hcm, hce⟩ := hex
      refine ⟨c, hcm, ?_⟩
      rw [decide_eq_true_eq]
      exact hce
    have hc2 : ((some n : Option Text).isSome &&
        s.categories.any fun c => decide (c.id ≠ k ∧ c.name = some n)) = true := by
      rw [Bool.and_eq_true]
      refine ⟨rfl, ?_⟩
      rw [List.any_eq_true]
      obtain ⟨c, hcm, hcne, hcnm⟩ := hother
      refine ⟨c, hcm, ?_⟩
      rw [decide_eq_true_eq]
      exact ⟨hcne, hcnm⟩
    have herr : updateCategoryName s.categories cs.rename_cat_id m.text
        = .error () := by
      rw [hk, hmn]
      simp only [updateCategoryName]
      rw [if_pos hc1, if_pos hc2]
    constructor
    · unfold save_renamed_category
      rw [herr]
    · unfold save_renamed_category
      rw [herr]

/-- Witness for the amended C2 at a concrete input: renaming B (id 2) to
A keeps names unique, leaves the store untouched and aborts the handler. -/
theorem C2_rename_blocked_by_unique_witness :
    uniqueNames (save_renamed_category (fun _ => true) c2Store c2Conv
      c2Msg).store ∧
    (save_renamed_category (fun _ => true) c2Store c2Conv c2Msg).store
      = c2Store := by
  have h := C2_rename_blocked_by_unique (fun _ => true) c2Store c2Conv
    c2Msg (by unfold uniqueIds; decide) (by unfold uniqueNames; decide)
  have h2 := h.2 2 "A".toList rfl rfl
    ⟨⟨2, some "B".toList⟩, by decide, rfl⟩
    ⟨⟨1, some "A".toList⟩, by decide, by decide, rfl⟩
  exact ⟨h.1, h2.1⟩

/-- Events: the add-to-category button pressed with no prior category
open, then arbitrary content — reachable from a fresh start. -/
def c1Events : List Event :=
  [.message ⟨some "➕ Add to X".toList, none, 5, 10⟩ (fun _ => true),
   .message ⟨some "hi".toList, none, 5, 11⟩ (fun _ => true)]

/-- Counterexample to claim C1 as stated: a reachable store state (press
add-to-category from Idle with empty scratch, then send content) holds a
task whose `cat_id` is NULL, so the referential invariant fails after
this handler sequence. -/
theorem C1_counterexample :
    ((run c1Events).1.tasks.map Task.cat_id = [none]) ∧
    taskRefsOkB (run c1Events).1 = false := by
  exact ⟨by decide, by decide⟩

/-- Amended claim C1: the referential invariant is preserved by
`delete_category` (tasks of the deleted category are purged with it) and
by `save_task` whenever the scratch `current_cat_id` refers to an
existing category; but it does not hold over arbitrary handler sequences,
because `save_task` can run with absent or stale scratch (inserting a
NULL or dangling `cat_id`), as the counterexample shows. -/
theorem C1_referential_preservation (o : Nat → Bool) (s : Store)
    (cs : ConvState) (m : Msg) (d : CategoryCB) (cid : Nat)
    (hok : taskRefsOkB s = true) (hcur : cs.current_cat_id = some cid)
    (hex : (s.categories.any fun c => decide (c.id = cid)) = true) :
    taskRefsOkB (save_task o s cs m).store = true ∧
    taskRefsOkB (delete_category o s cs d).store = true := by
  constructor
  · show taskRefsOkB ⟨s.categories, insertTask s.tasks cs.current_cat_id
      m.chat_id m.message_id (previewOf m.text m.caption)⟩ = true
    unfold taskRefsOkB insertTask
    rw [List.all_append, Bool.and_eq_true]
    constructor
    · exact hok
    · rw [List.all_eq_true]
      intro t ht
      rw [List.mem_singleton] at ht
      subst ht
      dsimp only
      rw [hcur]
      obtain ⟨c, hcmem, hce⟩ := List.any_eq_true.1 hex
      rw [decide_eq_true_eq] at hce
      refine List.any_eq_true.2 ⟨c, hcmem, ?_⟩
      rw [decide_eq_true_eq, hce]
  · rw [delete_category_store]
    unfold taskRefsOkB at hok ⊢
    dsimp only
    rw [List.all_eq_true] at hok ⊢
    intro t ht
    have htmem := (List.mem_filter.1 ht).1
    have htne := (List.mem_filter.1 ht).2
    rw [decide_eq_true_eq] at htne
    have hthis := hok t htmem
    rw [List.any_eq_true] at hthis ⊢
    obtain ⟨c, hcm, hce⟩ := hthis
    rw [decide_eq_true_eq] at hce
    refine ⟨c, ?_, ?_⟩
    · rw [List.mem_filter]
      refine ⟨hcm, ?_⟩
      rw [decide_eq_true_eq]
      intro hcd
      exact htne (by rw [hce, hcd])
    · rw [decide_eq_true_eq]
      exact hce

/-- Witness for the amended C1 at a concrete input: saving content with
`current_cat_id` pointing at the existing category 1, and deleting
category 1, both preserve the referential invariant. -/
theorem C1_referential_preservation_witness :
    taskRefsOkB (save_task (fun _ => true) wStore ⟨.idle, some 1, none⟩
      ⟨some "x".toList, none, 5, 12⟩).store = true ∧
    taskRefsOkB (delete_category (fun _ => true) wStore ⟨.idle, some 1, none⟩
      ⟨.delete_cat, 1⟩).store = true := by
  exact C1_referential_preservation (fun _ => true) wStore
    ⟨.idle, some 1, none⟩ ⟨some "x".toList, none, 5, 12⟩ ⟨.delete_cat, 1⟩ 1
    (by decide) rfl (by decide)

lemma find_name_unique (cats : List Category) (cat : Category) (n : Text)
    (hmem : cat ∈ cats) (hname : cat.name = some n)
    (hp : cats.Pairwise (fun a b => a.name = b.name → a.name = none)) :
    cats.find? (fun c => decide (c.name = some n)) = some cat := by
  induction cats with
  | nil => cases hmem
  | cons c0 tl ih =>
      rw [List.pairwise_cons] at hp
      rcases List.mem_cons.1 hmem with rfl | hmem2
      · rw [List.find?_cons_of_pos]
        rw [decide_eq_true_eq]
        exact hname
      · by_cases h0 : c0.name = some n
        · exfalso
          have hnone := hp.1 cat hmem2 (by rw [h0, hname])
          rw [h0] at hnone
          cases hnone
        · rw [List.find?_cons_of_neg]
          · exact ih hmem2 hp.2
          · rw [decide_eq_true_eq]
            exact h0

lemma show_category_conv_found (o : Nat → Bool) (s : Store)
    (cs : ConvState) (t : Text) (cat : Category)
    (hf : s.categories.find?
      (fun c => decide (c.name = some (t.drop 2))) = some cat) :
    (show_category o s cs t).conv = cs.setCurrentCat (some cat.id) := by
  unfold show_category
  dsimp only
  rw [hf]
  split
  · next heq => cases heq
  · next cat2 heq =>
      injection heq with heq
      subst heq
      split <;> rfl

/-- Events reaching a store with a NULL-named category (id 1, created by
a media message submitted while waiting for a category name: the INSERT
stores NULL, which UNIQUE permits) and a category literally named None
(id 2). -/
def c10Events : List Event :=
  [.message ⟨some "➕ New Category".toList, none, 5, 1⟩ (fun _ => true),
   .message ⟨none, none, 5, 2⟩ (fun _ => true),
   .message ⟨some "➕ New Category".toList, none, 5, 3⟩ (fun _ => true),
   .message ⟨some "None".toList, none, 5, 4⟩ (fun _ => true)]

/-- Counterexample to claim C10 as stated: the claim quantifies over
every stored category, but a NULL-named category is reachable, its main
menu button renders as the folder glyph plus the Python f-string text
None, and sending that button text resolves by exact name match to a
DIFFERENT category literally named None (id 2), not to the NULL-named
category (id 1) — and with no such homonym it would resolve to nothing. -/
theorem C10_counterexample :
    (⟨1, (none : Option Text)⟩ : Category) ∈ (run c10Events).1.categories ∧
    ('📁' :: ' ' :: renderName (none : Option Text))
      ∈ mainMenuLabels (run c10Events).1 ∧
    find_category_by_name (run c10Events).1
      (('📁' :: ' ' :: renderName (none : Option Text)).drop 2) = some 2 ∧
    (show_category (fun _ => true) (run c10Events).1 ConvState.cleared
      ('📁' :: ' ' :: renderName (none : Option Text))).conv.current_cat_id
      = some 2 := by
  exact ⟨by decide, by decide, by decide, by decide⟩

/-- Amended claim C10: for every stored category with a non-NULL name
(and unique names, as the schema's UNIQUE constraint provides for
non-NULL names), the main menu labels it by prepending the folder glyph
and a space to its name; the open-category handler drops exactly the two
leading characters and resolves the remainder by exact name match, so
the button text of such a category resolves back to that category's id
and is recorded as `current_cat_id`.  NULL-named categories are excluded:
their button renders as the literal text None and does not resolve to
them. -/
theorem C10_label_roundtrip (o : Nat → Bool) (s : Store) (cs : ConvState)
    (cat : Category) (n : Text) (hmem : cat ∈ s.categories)
    (hname : cat.name = some n) (hu : uniqueNames s) :
    ('📁' :: ' ' :: renderName cat.name) ∈ mainMenuLabels s ∧
    ('📁' :: ' ' :: renderName cat.name).drop 2 = n ∧
    find_category_by_name s (('📁' :: ' ' :: renderName cat.name).drop 2)
      = some cat.id ∧
    (show_category o s cs ('📁' :: ' ' :: renderName cat.name)).conv.current_cat_id
      = some cat.id := by
  have hdrop : ('📁' :: ' ' :: renderName cat.name).drop 2 = n := by
    rw [hname]
    rfl
  have hfind : s.categories.find? (fun c => decide (c.name =
      some (('📁' :: ' ' :: renderName cat.name).drop 2))) = some cat := by
    rw [hdrop]
    exact find_name_unique s.categories cat n hmem hname hu
  refine ⟨?_, hdrop, ?_, ?_⟩
  · unfold mainMenuLabels
    refine List.mem_append.2 (Or.inl ?_)
    exact List.mem_map.2 ⟨cat, hmem, rfl⟩
  · unfold find_category_by_name
    rw [hfind]
    rfl
  · rw [show_category_conv_found o s cs _ cat hfind]
    rfl

/-- Witness for C10 at a concrete input: the button text of category W
resolves to id 1 and is stored in scratch. -/
theorem C10_label_roundtrip_witness :
    find_category_by_name wStore
      (('📁' :: ' ' :: renderName (some "W".toList)).drop 2) = some 1 ∧
    (show_category (fun _ => true) wStore ConvState.cleared
      ('📁' :: ' ' :: renderName (some "W".toList))).conv.current_cat_id
      = some 1 := by
  have h := C10_label_roundtrip (fun _ => true) wStore ConvState.cleared
    ⟨1, some "W".toList⟩ "W".toList (by decide) rfl
    (by unfold uniqueNames; decide)
  exact ⟨h.2.2.1, h.2.2.2⟩

lemma copyIds_copies (ts : List Task) :
    copyIds (ts.map fun tk => Call.copyMessage tk.chat_id tk.msg_id tk.id)
      = ts.map Task.id := by
  induction ts with
  | nil => rfl
  | cons x xs ih =>
      simp only [List.map_cons, copyIds, List.filterMap_cons] at ih ⊢
      rw [ih]

lemma copyIds_show_category (o : Nat → Bool) (s : Store) (cs : ConvState)
    (t : Text) :
    copyIds (show_category o s cs t).calls =
      (match s.categories.find?
          (fun c => decide (c.name = some (t.drop 2))) with
       | none => []
       | some cat => (tasksOfCat s cat.id).map Task.id) := by
  unfold show_category
  dsimp only
  split
  · rfl
  · next cat heq =>
      split
      · unfold copyIds
        rw [List.filterMap_append]
        have h1 := copyIds_copies (tasksOfCat s cat.id)
        unfold copyIds at h1
        rw [h1]
        simp
      · unfold copyIds
        rw [List.filterMap_append]
        have h1 := copyIds_copies (tasksOfCat s cat.id)
        unfold copyIds at h1
        rw [h1]
        simp

/-- Claim C7: on every store reachable from a fresh start, opening a
category replays its tasks in strictly increasing task-id order, one copy
call per stored task of the category (task rowids grow monotonically, and
the unindexed scan returns rowid order). -/
theorem C7_replay_ascending (es : List Event) (o : Nat → Bool)
    (cs : ConvState) (t : Text) :
    List.Pairwise (· < ·)
      (copyIds (show_category o (run es).1 cs t).calls) ∧
    (∀ cat, (run es).1.categories.find?
        (fun c => decide (c.name = some (t.drop 2))) = some cat →
      copyIds (show_category o (run es).1 cs t).calls =
        (tasksOfCat (run es).1 cat.id).map Task.id) := by
  constructor
  · rw [copyIds_show_category]
    cases hf : (run es).1.categories.find?
        (fun c => decide (c.name = some (t.drop 2))) with
    | none => exact List.Pairwise.nil
    | some cat =>
        have hs := run_tasksSorted es
        have hfil : taskIdsSorted (tasksOfCat (run es).1 cat.id) :=
          taskIdsSorted_filter _ hs _
        exact List.pairwise_map.2 hfil
  · intro cat hf
    rw [copyIds_show_category, hf]

/-- Events reaching a store with category W (id 1) holding tasks 1, 2:
create W, open it, add content twice via the add-to flow. -/
def c7Events : List Event :=
  [.message ⟨some "➕ New Category".toList, none, 5, 1⟩ (fun _ => true),
   .message ⟨some "W".toList, none, 5, 2⟩ (fun _ => true),
   .message ⟨some "📁 W".toList, none, 5, 3⟩ (fun _ => true),
   .message ⟨some "➕ Add to W".toList, none, 5, 4⟩ (fun _ => true),
   .message ⟨some "hi".toList, none, 5, 5⟩ (fun _ => true),
   .message ⟨some "📁 W".toList, none, 5, 6⟩ (fun _ => true),
   .message ⟨some "➕ Add to W".toList, none, 5, 7⟩ (fun _ => true),
   .message ⟨some "ho".toList, none, 5, 8⟩ (fun _ => true)]

/-- Witness for C7 at a concrete input: opening W on the store reached by
`c7Events` replays exactly task ids 1, 2 in that order. -/
theorem C7_replay_ascending_witness :
    copyIds (show_category (fun _ => true) (run c7Events).1
      ConvState.cleared ('📁' :: ' ' :: "W".toList)).calls = [1, 2] := by
  have h := (C7_replay_ascending c7Events (fun _ => true)
    ConvState.cleared ('📁' :: ' ' :: "W".toList)).2
    ⟨1, some "W".toList⟩ (by decide)
  rw [h]
  decide

end Bot
